import Mathlib

/-!
Verification of the GoTo Analytics dashboard's normalization pipeline
(`load_data`) and filter/KPI engine (`df_filtered`, `missed_count`,
`missed_rate`) from `app.py`, as a shallow embedding.

Raw CSV cells are `Option String` (`none` models a pandas `NaN`), a row is an
association list from column name to cell, and a table carries its header
list.  Machine floats of the source are modelled by `ℚ` (the source only
divides exact integers by `60000`, so `ℚ` is exact for every quantity the
claims mention).
-/

namespace GoToAnalytics

/-- A raw CSV cell; `none` models a pandas `NaN` (blank / missing value). -/
abbrev Cell := Option String

/-- One input row: an association list from column name to cell. -/
abbrev Row := List (String × Cell)

/-- Cell lookup in a row.  A column that is absent from the row behaves as
`NaN`; in a well-formed pandas frame every header column is present in every
row, so this only matters for ill-formed inputs. -/
def cell (r : Row) (c : String) : Cell :=
  (List.lookup c r).getD none

/-- An input table: the CSV header list plus the data rows, as produced by
`pd.read_csv`. -/
structure RawTable where
  headers : List String
  rows : List Row

/-- Numeric value of a decimal digit character. -/
def digitVal (c : Char) : Nat := c.toNat - 48

/-- Leap-year test of the proleptic Gregorian calendar. -/
def isLeap (y : Int) : Bool :=
  (y % 4 == 0 && y % 100 != 0) || (y % 400 == 0)

/-- Number of days in a month of the Gregorian calendar. -/
def daysInMonth (y : Int) (m : Nat) : Nat :=
  if m = 2 then (if isLeap y then 29 else 28)
  else if m = 4 ∨ m = 6 ∨ m = 9 ∨ m = 11 then 30
  else 31

/-- A civil (calendar) date, the value of the derived `Data` column
(`.dt.date` in the source). -/
structure CivilDate where
  year : Int
  month : Nat
  day : Nat
deriving DecidableEq, Repr

/-- Days since the Unix epoch 1970-01-01 of a Gregorian civil date
(standard era-based calendar arithmetic, exact for all dates). -/
def daysFromCivil (y : Int) (m d : Nat) : Int :=
  let yy : Int := if m ≤ 2 then y - 1 else y
  let era : Int := Int.ediv yy 400
  let yoe : Nat := (yy - era * 400).toNat
  let mp : Nat := (m + 9) % 12
  let doy : Nat := (153 * mp + 2) / 5 + d - 1
  let doe : Nat := yoe * 365 + yoe / 4 - yoe / 100 + doy
  era * 146097 + (doe : Int) - 719468

/-- Gregorian civil date of a count of days since the Unix epoch (inverse of
`daysFromCivil`). -/
def civilFromDays (z : Int) : CivilDate :=
  let zz : Int := z + 719468
  let era : Int := Int.ediv zz 146097
  let doe : Nat := (zz - era * 146097).toNat
  let yoe : Nat := (doe - doe / 1460 + doe / 36524 - doe / 146096) / 365
  let y : Int := (yoe : Int) + era * 400
  let doy : Nat := doe - (365 * yoe + yoe / 4 - yoe / 100)
  let mp : Nat := (5 * doy + 2) / 153
  let d : Nat := doy - (153 * mp + 2) / 5 + 1
  let m : Nat := if mp < 10 then mp + 3 else mp - 9
  { year := if m ≤ 2 then y + 1 else y, month := m, day := d }

/-- Models `pd.to_datetime(value, errors='coerce', utc=True)` on one cell,
restricted to the ISO-8601 UTC timestamp shape `YYYY-MM-DDThh:mm:ssZ` that the
GoTo export uses.  The result is seconds since the Unix epoch; any other value
(including `NaN`) coerces to `NaT`, i.e. `none`. -/
def parseTimestampUTC (s : String) : Option Int :=
  match s.toList with
  | [y1, y2, y3, y4, '-', m1, m2, '-', d1, d2, 'T',
     h1, h2, ':', n1, n2, ':', c1, c2, 'Z'] =>
    if ([y1, y2, y3, y4, m1, m2, d1, d2, h1, h2, n1, n2, c1, c2].all
          Char.isDigit) then
      let y : Int :=
        ((1000 * digitVal y1 + 100 * digitVal y2 + 10 * digitVal y3 +
           digitVal y4 : Nat) : Int)
      let mo : Nat := 10 * digitVal m1 + digitVal m2
      let da : Nat := 10 * digitVal d1 + digitVal d2
      let h : Nat := 10 * digitVal h1 + digitVal h2
      let mi : Nat := 10 * digitVal n1 + digitVal n2
      let se : Nat := 10 * digitVal c1 + digitVal c2
      if 1 ≤ mo && mo ≤ 12 && 1 ≤ da && da ≤ daysInMonth y mo &&
          h ≤ 23 && mi ≤ 59 && se ≤ 59 then
        some (daysFromCivil y mo da * 86400 + ((3600 * h + 60 * mi + se : Nat) : Int))
      else none
    else none
  | _ => none

/-- Timestamp resolution of one row (`pd.to_datetime` applied to the chosen
date column): a `NaN` cell or an unparseable string yields `NaT` (`none`). -/
def parseDateCell (r : Row) (c : String) : Option Int :=
  match cell r c with
  | none => none
  | some s => parseTimestampUTC s

/-- Models `.dt.tz_convert('America/Sao_Paulo')`: América/São_Paulo has the
fixed offset UTC−03:00 (daylight saving was abolished in 2019), so the local
clock reading is the absolute instant minus three hours. -/
def tz_convert_SaoPaulo (ts : Int) : Int := ts - 10800

/-- Civil date (`.dt.date`) of a local-clock epoch-second count. -/
def dateOfLocal (localTs : Int) : CivilDate :=
  civilFromDays (Int.ediv localTs 86400)

/-- Civil hour 0–23 (`.dt.hour`) of a local-clock epoch-second count. -/
def hourOfLocal (localTs : Int) : Nat :=
  ((localTs % 86400).toNat) / 3600

/-- Weekday index of an epoch-day count; 0 = Sunday … 6 = Saturday
(day 0, 1970-01-01, was a Thursday). -/
def weekdayIdx (z : Int) : Nat := ((z + 4) % 7).toNat

/-- English weekday name (`.dt.day_name()` with pandas' default locale). -/
def day_name : Nat → String
  | 0 => "Sunday"
  | 1 => "Monday"
  | 2 => "Tuesday"
  | 3 => "Wednesday"
  | 4 => "Thursday"
  | 5 => "Friday"
  | 6 => "Saturday"
  | _ => ""

/-- Value of an unsigned decimal literal. -/
def natOfDigits (l : List Char) : Nat :=
  l.foldl (fun a c => 10 * a + digitVal c) 0

/-- Parses an unsigned decimal number, with an optional fractional part,
into an exact rational. -/
def parseUnsigned (l : List Char) : Option ℚ :=
  let ip := l.takeWhile Char.isDigit
  match l.drop ip.length with
  | [] => if ip.isEmpty then none else some ((natOfDigits ip : ℕ) : ℚ)
  | '.' :: frac =>
    if frac.all Char.isDigit && !(ip.isEmpty && frac.isEmpty) then
      some (((natOfDigits ip : ℕ) : ℚ) +
        ((natOfDigits frac : ℕ) : ℚ) / ((10 : ℚ) ^ frac.length))
    else none
  | _ => none

/-- Models `pd.to_numeric(value, errors='coerce')` on one cell, restricted to
plain decimal literals with an optional sign and optional fractional part (the
shapes the duration column carries).  `NaN` and unparseable values coerce to
`none`. -/
def parseNumeric (c : Cell) : Option ℚ :=
  match c with
  | none => none
  | some s =>
    match s.toList with
    | '-' :: rest => (parseUnsigned rest).map Neg.neg
    | '+' :: rest => parseUnsigned rest
    | l => parseUnsigned l

/-- Models `.astype(str)` on one cell: a pandas `NaN` stringifies to the
literal text `nan`. -/
def pyStr (c : Cell) : String :=
  match c with
  | none => "nan"
  | some s => s

/-- Models `.str.replace(r'^\d+:\s*', '', regex=True)`: one or more leading
digits followed by a colon and any following whitespace are removed once from
the start of the string; anything else is left unchanged. -/
def stripAgentCode (s : String) : String :=
  let l := s.toList
  let ds := l.takeWhile Char.isDigit
  if ds.isEmpty then s
  else
    match l.drop ds.length with
    | ':' :: rest => String.mk (rest.dropWhile Char.isWhitespace)
    | _ => s

/-- The `Agente` column computation of `load_data`: stringify the raw `From`
cell, strip a numeric agent-code prefix, then apply the two exact-match
replacements `'nan' → 'Desconhecido'` and `'Wait in queue' → 'Fila de
Espera'`. -/
def agenteOf (c : Cell) : String :=
  let s1 := stripAgentCode (pyStr c)
  if s1 = "nan" then "Desconhecido"
  else if s1 = "Wait in queue" then "Fila de Espera"
  else s1

/-- The weekday translation dictionary `dias_traducao` of `load_data`. -/
def dias_traducao : List (String × String) :=
  [("Monday", "Segunda"), ("Tuesday", "Terça"), ("Wednesday", "Quarta"),
   ("Thursday", "Quinta"), ("Friday", "Sexta"), ("Saturday", "Sábado"),
   ("Sunday", "Domingo")]

/-- Models `.map(dias_traducao)` on one value: a pandas `Series.map` through a
dictionary yields `NaN` (`none`) for a key that is not in the dictionary. -/
def mapDiaSemana (s : String) : Option String :=
  List.lookup s dias_traducao

/-- The canonical record after `load_data`: one row of the cleaned frame,
keeping the columns the filters, KPIs and charts consume. -/
structure CallRecord where
  data_Hora : Int
  data : CivilDate
  hora : Nat
  dia_Semana : String
  duration_ms : ℚ
  duracao_Minutos : ℚ
  agente : String
  dia_Semana_PT : Option String
  direction : Cell
  callResult : Cell
deriving DecidableEq, Repr

/-- Derived-column computation of `load_data` for one kept row, given the
parsed UTC instant of its date cell: timezone conversion, the derived temporal
columns, duration coercion (`to_numeric(...).fillna(0)` then division by
60000), agent cleanup, and the weekday translation.  The raw `Direction` and
`Call Result` cells are carried over unchanged — `load_data` performs no
translation or trimming on them. -/
def mkRecord (r : Row) (tsUTC : Int) : CallRecord :=
  let localTs := tz_convert_SaoPaulo tsUTC
  let z := Int.ediv localTs 86400
  let dname := day_name (weekdayIdx z)
  let dur := (parseNumeric (cell r "Duration [Milliseconds]")).getD 0
  { data_Hora := localTs
    data := civilFromDays z
    hora := hourOfLocal localTs
    dia_Semana := dname
    duration_ms := dur
    duracao_Minutos := dur / 60000
    agente := agenteOf (cell r "From")
    dia_Semana_PT := mapDiaSemana dname
    direction := cell r "Direction"
    callResult := cell r "Call Result" }

/-- The error raised by `load_data`: a pandas `KeyError` for a column that is
absent from the frame. -/
inductive LoadError where
  | keyError (col : String)
deriving DecidableEq, Repr

/-- The timestamp source column chosen by `load_data`: the timezone-qualified
name when present, otherwise the generic `Date`. -/
def dateColOf (t : RawTable) : String :=
  if "Date [America/Sao_Paulo]" ∈ t.headers then "Date [America/Sao_Paulo]"
  else "Date"

/-- `load_data` from `app.py` (the normalization pipeline): choose the date
column, parse timestamps coercing failures to `NaT`, drop rows without a valid
timestamp, then build the derived columns of each kept row.  Accessing a
column that is absent from the frame raises `KeyError`; the source raises for
the date column first (line 44), then — after the date processing — for
`Duration [Milliseconds]` (line 59) and `From` (line 65).  In this pure
embedding the intermediate date processing is not observable, so only the
relative order of the three `KeyError`s is kept. -/
def load_data (t : RawTable) : Except LoadError (List CallRecord) :=
  let dateCol := dateColOf t
  if dateCol ∈ t.headers then
    let kept := t.rows.filterMap
      (fun r => (parseDateCell r dateCol).map (fun ts => (r, ts)))
    if "Duration [Milliseconds]" ∈ t.headers then
      if "From" ∈ t.headers then
        .ok (kept.map (fun p => mkRecord p.1 p.2))
      else .error (.keyError "From")
    else .error (.keyError "Duration [Milliseconds]")
  else .error (.keyError dateCol)

/-- Whether an `Except` value is a success. -/
def isOkB {ε α : Type} : Except ε α → Bool
  | .ok _ => true
  | .error _ => false

/-- The canonical record list of a table: the successful result of
`load_data`, or `[]` when it raises. -/
def recsOf (t : RawTable) : List CallRecord :=
  ((load_data t).toOption).getD []

/-- Chronological comparison of civil dates (Python `date` ordering). -/
def dateLe (a b : CivilDate) : Bool :=
  decide (daysFromCivil a.year a.month a.day ≤ daysFromCivil b.year b.month b.day)

/-- The filter application of the dashboard (`df_filtered`, lines 117–120):
the date-range mask and the two `isin` masks over the raw `Direction` and
`Call Result` columns are applied unconditionally in one step; the agent
`isin` filter is applied only when the selected-agent list is nonempty
(`if selected_agents:`). -/
def df_filtered (df : List CallRecord) (start_date end_date : CivilDate)
    (directions results : List Cell) (selected_agents : List String) :
    List CallRecord :=
  let base := df.filter (fun r =>
    dateLe start_date r.data && dateLe r.data end_date &&
      directions.contains r.direction && results.contains r.callResult)
  if selected_agents.isEmpty then base
  else base.filter (fun r => selected_agents.contains r.agente)

/-- Substring test of two character lists. -/
def infixOf (needle : List Char) : List Char → Bool
  | [] => needle.isEmpty
  | c :: t => needle.isPrefixOf (c :: t) || infixOf needle t

/-- Case-insensitive "contains" test, the semantics of
`str.contains(pat, case=False)` for a literal pattern: both sides are
lower-cased character-wise before the substring test. -/
def containsCI (s pat : String) : Bool :=
  infixOf (pat.toList.map Char.toLower) (s.toList.map Char.toLower)

/-- The missed-call predicate of the KPI block (line 140):
`.str.contains('Missed|Voicemail', case=False, na=False)` — the raw
`Call Result` contains `Missed` or `Voicemail` case-insensitively, and a `NaN`
cell never matches (`na=False`). -/
def lostB (c : Cell) : Bool :=
  match c with
  | none => false
  | some s => containsCI s "Missed" || containsCI s "Voicemail"

/-- `total_calls` of the KPI block: the size of the filtered frame. -/
def total_calls (d : List CallRecord) : Nat := d.length

/-- `missed_count` of the KPI block: how many filtered records match the
missed-call predicate. -/
def missed_count (d : List CallRecord) : Nat :=
  (d.filter (fun r => lostB r.callResult)).length

/-- `missed_rate` of the KPI block:
`(missed_count / total_calls * 100) if total_calls > 0 else 0`. -/
def missed_rate (d : List CallRecord) : ℚ :=
  if 0 < total_calls d then
    ((missed_count d : ℕ) : ℚ) / ((total_calls d : ℕ) : ℚ) * 100
  else 0

/-- The direction translation table of the specification (§6), stated from
the spec's words in order to check claim C1 against the code: the code itself
contains no such table. -/
def specDirectionTable : List (String × String) :=
  [("Inbound", "Recebida"), ("Outbound", "Realizada"), ("Internal", "Interna")]

/-- The result translation table of the specification (§6), stated from the
spec's words in order to check claim C1 against the code: the code itself
contains no such table. -/
def specResultTable : List (String × String) :=
  [("Missed Call", "Perdida"), ("Ended successfully", "Atendida"),
   ("Voicemail", "Correio de Voz"), ("Rejected", "Rejeitada"),
   ("Internal", "Interna"), ("Busy", "Ocupado"), ("Failed", "Falha"),
   ("Hung up (on hold)", "Desligou na Espera"),
   ("Sent to voicemail", "Enviado p/ Correio de Voz"),
   ("Hung up (in queue)", "Desligou na Fila")]

/-! ### Shared lemmas about the embedding -/

/-- A `filterMap` keeps every element exactly when `f` succeeds everywhere. -/
theorem length_filterMap_eq_iff {α β : Type} {f : α → Option β} :
    ∀ {l : List α},
      ((l.filterMap f).length = l.length ↔ ∀ a ∈ l, (f a).isSome = true) := by
  intro l
  induction l with
  | nil => simp
  | cons a t ih =>
    cases h : f a with
    | none =>
      simp only [List.filterMap_cons, h, List.length_cons]
      constructor
      · intro hlen
        have hle := List.length_filterMap_le f t
        omega
      · intro hall
        have := hall a (List.mem_cons_self a t)
        rw [h] at this
        simp at this
    | some b =>
      simp only [List.filterMap_cons, h, List.length_cons,
        List.forall_mem_cons, Option.isSome_some, true_and]
      constructor
      · intro hlen
        exact ih.mp (by omega)
      · intro hall
        rw [ih.mpr hall]

/-- Pointwise implication of predicates bounds the filtered length. -/
theorem length_filter_mono {α : Type} {p q : α → Bool}
    (h : ∀ a, p a = true → q a = true) :
    ∀ l : List α, (l.filter p).length ≤ (l.filter q).length := by
  intro l
  induction l with
  | nil => simp
  | cons a t ih =>
    by_cases hp : p a = true
    · rw [List.filter_cons_of_pos hp, List.filter_cons_of_pos (h a hp)]
      simpa using ih
    · rw [List.filter_cons_of_neg hp]
      by_cases hq : q a = true
      · rw [List.filter_cons_of_pos hq]
        exact Nat.le_trans ih (Nat.le_succ _)
      · rw [List.filter_cons_of_neg hq]
        exact ih

/-- The chosen date column is a header exactly when one of the two recognized
date-column names is a header. -/
theorem dateCol_mem_iff (t : RawTable) :
    dateColOf t ∈ t.headers ↔
      ("Date [America/Sao_Paulo]" ∈ t.headers ∨ "Date" ∈ t.headers) := by
  by_cases h1 : "Date [America/Sao_Paulo]" ∈ t.headers <;>
    simp [dateColOf, h1]

/-- `load_data` succeeds exactly when the three required columns are present,
the date column under either recognized name. -/
theorem load_data_ok_iff (t : RawTable) :
    isOkB (load_data t) = true ↔
      (("Date [America/Sao_Paulo]" ∈ t.headers ∨ "Date" ∈ t.headers) ∧
        "Duration [Milliseconds]" ∈ t.headers ∧ "From" ∈ t.headers) := by
  rw [← dateCol_mem_iff]
  by_cases h1 : dateColOf t ∈ t.headers <;>
    by_cases h2 : "Duration [Milliseconds]" ∈ t.headers <;>
      by_cases h3 : "From" ∈ t.headers <;>
        simp [load_data, isOkB, h1, h2, h3]

/-- The successful result of `load_data`, explicitly. -/
theorem load_data_eq_ok (t : RawTable) (h1 : dateColOf t ∈ t.headers)
    (h2 : "Duration [Milliseconds]" ∈ t.headers) (h3 : "From" ∈ t.headers) :
    load_data t = .ok ((t.rows.filterMap
        (fun r => (parseDateCell r (dateColOf t)).map (fun ts => (r, ts)))).map
      (fun p => mkRecord p.1 p.2)) := by
  simp [load_data, h1, h2, h3]

/-- The canonical record list, explicitly, when `load_data` succeeds. -/
theorem recsOf_eq (t : RawTable) (h1 : dateColOf t ∈ t.headers)
    (h2 : "Duration [Milliseconds]" ∈ t.headers) (h3 : "From" ∈ t.headers) :
    recsOf t = (t.rows.filterMap
        (fun r => (parseDateCell r (dateColOf t)).map (fun ts => (r, ts)))).map
      (fun p => mkRecord p.1 p.2) := by
  simp [recsOf, load_data_eq_ok t h1 h2 h3, Except.toOption]

/-- Every canonical record is the derived-column image of an input row whose
date cell parsed. -/
theorem mem_recsOf {t : RawTable} {r : CallRecord} (hr : r ∈ recsOf t) :
    ∃ row ts, row ∈ t.rows ∧
      parseDateCell row (dateColOf t) = some ts ∧ r = mkRecord row ts := by
  by_cases h1 : dateColOf t ∈ t.headers
  · by_cases h2 : "Duration [Milliseconds]" ∈ t.headers
    · by_cases h3 : "From" ∈ t.headers
      · rw [recsOf_eq t h1 h2 h3] at hr
        obtain ⟨p, hp, hpr⟩ := List.mem_map.mp hr
        obtain ⟨row, hrow, hmap⟩ := List.mem_filterMap.mp hp
        obtain ⟨ts, hts, hpair⟩ := Option.map_eq_some'.mp hmap
        refine ⟨row, ts, hrow, hts, ?_⟩
        rw [← hpr, ← hpair]
      · simp [recsOf, load_data, h1, h2, h3, Except.toOption] at hr
    · simp [recsOf, load_data, h1, h2, Except.toOption] at hr
  · simp [recsOf, load_data, h1, Except.toOption] at hr

/-- The combined row predicate `df_filtered` effectively filters by. -/
def matchesF (start_date end_date : CivilDate)
    (directions results : List Cell) (selected_agents : List String)
    (r : CallRecord) : Bool :=
  dateLe start_date r.data && dateLe r.data end_date &&
    directions.contains r.direction && results.contains r.callResult &&
    (selected_agents.isEmpty || selected_agents.contains r.agente)

/-- `df_filtered` is a single stable filter by the combined predicate. -/
theorem df_filtered_eq (df : List CallRecord) (s e : CivilDate)
    (dirs ress : List Cell) (agents : List String) :
    df_filtered df s e dirs ress agents =
      df.filter (matchesF s e dirs ress agents) := by
  cases ha : agents.isEmpty with
  | true =>
    rw [df_filtered, if_pos (by simp [ha])]
    exact List.filter_congr (fun r _ => by simp [matchesF, ha])
  | false =>
    rw [df_filtered, if_neg (by simp [ha])]
    rw [List.filter_filter]
    exact List.filter_congr (fun r _ => by
      simp only [matchesF, ha, Bool.false_or]
      exact Bool.and_comm _ _)

/-- Membership in a `contains`-test list is monotone under list inclusion. -/
theorem contains_mono {α : Type} [BEq α] [LawfulBEq α] {l l2 : List α} {x : α}
    (hs : l ⊆ l2) (h : l.contains x = true) : l2.contains x = true := by
  simp only [List.elem_eq_mem, decide_eq_true_eq] at h ⊢
  exact hs h

/-! ### Concrete fixtures (the spec's scenario row and small variants) -/

/-- The scenario row of the spec: §8, the fully-populated example. -/
def row1 : Row :=
  [("Date [America/Sao_Paulo]", some "2024-01-15T10:00:00Z"),
   ("Duration [Milliseconds]", some "125000"),
   ("From", some "067: Maria"),
   ("Direction", some "Inbound"),
   ("Call Result", some "Missed Call")]

/-- A row whose only populated cell is a valid date; every other cell is
`NaN`. -/
def row2 : Row :=
  [("Date [America/Sao_Paulo]", some "2024-01-16T00:30:00Z")]

/-- A row with an unparseable date cell. -/
def rowBad : Row :=
  [("Date [America/Sao_Paulo]", some "not-a-date"),
   ("Duration [Milliseconds]", some "1000"),
   ("From", some "Ana")]

/-- The full header list of the GoTo export. -/
def headersAll : List String :=
  ["Date [America/Sao_Paulo]", "Duration [Milliseconds]", "From",
   "Direction", "Call Result"]

/-- One-row table holding the spec's scenario row. -/
def tbl1 : RawTable := ⟨headersAll, [row1]⟩

/-- Two-row table: the scenario row plus an all-blank row. -/
def tbl2 : RawTable := ⟨headersAll, [row1, row2]⟩

/-- Table exercising the three agent-identity cases: surrounding whitespace,
a missing origin, and the queue-wait marker. -/
def tbl3 : RawTable :=
  ⟨["Date [America/Sao_Paulo]", "Duration [Milliseconds]", "From"],
   [[("Date [America/Sao_Paulo]", some "2024-01-15T10:00:00Z"),
     ("From", some " Maria ")],
    [("Date [America/Sao_Paulo]", some "2024-01-15T11:00:00Z")],
    [("Date [America/Sao_Paulo]", some "2024-01-15T12:00:00Z"),
     ("From", some "Wait in queue")]]⟩

/-- Table with a negative raw duration. -/
def tbl5 : RawTable :=
  ⟨["Date [America/Sao_Paulo]", "Duration [Milliseconds]", "From"],
   [[("Date [America/Sao_Paulo]", some "2024-01-15T10:00:00Z"),
     ("Duration [Milliseconds]", some "-1"),
     ("From", some "X")]]⟩

/-- Two-row table whose second row has an unparseable date. -/
def tbl6 : RawTable := ⟨headersAll, [row1, rowBad]⟩

/-- A minimal canonical record with a chosen raw `Call Result`, for
exercising the KPI predicate. -/
def mkSimpleRec (res : Cell) : CallRecord :=
  { data_Hora := 0, data := ⟨1970, 1, 1⟩, hora := 0, dia_Semana := "Thursday",
    duration_ms := 0, duracao_Minutos := 0, agente := "A",
    dia_Semana_PT := some "Quinta", direction := some "Inbound",
    callResult := res }

/-- A mixed record list for the missed-call KPI: exactly the first and third
records match the `Missed|Voicemail` predicate. -/
def demoRecords : List CallRecord :=
  [mkSimpleRec (some "Sent to voicemail"), mkSimpleRec (some "Rejected"),
   mkSimpleRec (some "Missed Call"), mkSimpleRec (some "Busy"),
   mkSimpleRec none]

/-! ### Claims -/

/-- Claim C1 is false of the code: `load_data` applies no translation table to
`Direction` or `Call Result`.  On the spec's own scenario row (raw direction
`Inbound`, raw result `Missed Call`) the output record carries the raw values,
not the table labels `Recebida`/`Perdida`; and an all-blank row yields a null
(`none`) direction and result, contradicting "never null". -/
theorem claim1_cex :
    (recsOf tbl2).map CallRecord.direction = [some "Inbound", none] ∧
    (recsOf tbl2).map CallRecord.callResult = [some "Missed Call", none] ∧
    List.lookup "Inbound" specDirectionTable = some "Recebida" ∧
    List.lookup "Missed Call" specResultTable = some "Perdida" ∧
    (some "Inbound" : Cell) ≠ some "Recebida" ∧
    (some "Missed Call" : Cell) ≠ some "Perdida" := by
  decide

/-- Claim C1 (amended): for every output record, the `direction` and `result`
fields are the raw `Direction` and `Call Result` cells of its source row,
carried over completely unchanged — no translation table is applied, no
trimming happens, and a missing raw value stays missing (null). -/
theorem claim1_amended_raw_passthrough :
    ∀ (t : RawTable) (r : CallRecord), r ∈ recsOf t →
      ∃ row, row ∈ t.rows ∧ r.direction = cell row "Direction" ∧
        r.callResult = cell row "Call Result" := by
  intro t r hr
  obtain ⟨row, ts, hrow, _, hrec⟩ := mem_recsOf hr
  exact ⟨row, hrow, by rw [hrec]; rfl, by rw [hrec]; rfl⟩

/-- Witness for the amended claim C1 at the spec's scenario table. -/
theorem claim1_amended_witness :
    mkRecord row1 1705312800 ∈ recsOf tbl1 ∧
    ∃ row, row ∈ tbl1.rows ∧
      (mkRecord row1 1705312800).direction = cell row "Direction" ∧
      (mkRecord row1 1705312800).callResult = cell row "Call Result" := by
  have he : recsOf tbl1 = [mkRecord row1 1705312800] := rfl
  have hm : mkRecord row1 1705312800 ∈ recsOf tbl1 := by
    rw [he]
    exact List.mem_singleton.mpr rfl
  exact ⟨hm, claim1_amended_raw_passthrough tbl1 _ hm⟩

/-- Claim C2 is false of the code: the `Direction`/`Call Result` `isin`
filters are applied unconditionally, so an empty supplied set matches nothing.
On a one-record set matching all other constraints, an empty direction set
yields 0 records while the direction-unconstrained filter yields 1. -/
theorem claim2_cex :
    (df_filtered (recsOf tbl1) ⟨2024, 1, 1⟩ ⟨2024, 12, 31⟩ []
        [some "Missed Call"] []).length = 0 ∧
    ((recsOf tbl1).filter (fun r =>
        dateLe ⟨2024, 1, 1⟩ r.data && dateLe r.data ⟨2024, 12, 31⟩ &&
          [some "Missed Call"].contains r.callResult)).length = 1 ∧
    (0 : ℕ) ≠ 1 := by
  decide

/-- Claim C2 (amended): the empty-set-means-no-constraint semantics holds only
for the agent (origin) filter, which is skipped when the supplied list is
empty; for `direction` and `result` the `isin` mask is applied
unconditionally, so an empty supplied set matches nothing. -/
theorem claim2_amended_empty_set_semantics :
    (∀ (df : List CallRecord) (s e : CivilDate) (dirs ress : List Cell),
      df_filtered df s e dirs ress [] =
        df.filter (fun r => dateLe s r.data && dateLe r.data e &&
          dirs.contains r.direction && ress.contains r.callResult)) ∧
    (∀ (df : List CallRecord) (s e : CivilDate) (ress : List Cell)
        (agents : List String), df_filtered df s e [] ress agents = []) ∧
    (∀ (df : List CallRecord) (s e : CivilDate) (dirs : List Cell)
        (agents : List String), df_filtered df s e dirs [] agents = []) := by
  refine ⟨fun df s e dirs ress => rfl, ?_, ?_⟩
  · intro df s e ress agents
    rw [df_filtered_eq]
    refine List.filter_eq_nil_iff.mpr (fun r _ => ?_)
    simp [matchesF, List.contains, List.elem]
  · intro df s e dirs agents
    rw [df_filtered_eq]
    refine List.filter_eq_nil_iff.mpr (fun r _ => ?_)
    simp [matchesF, List.contains, List.elem]

/-- Claim C3 is false of the code: the origin is not trimmed (surrounding
whitespace survives), and the two sentinels are the literals `Desconhecido`
and `Fila de Espera`, not `Unknown` and `Queue wait`. -/
theorem claim3_cex :
    (recsOf tbl3).map CallRecord.agente =
      [" Maria ", "Desconhecido", "Fila de Espera"] ∧
    " Maria " ≠ "Maria" ∧ "Desconhecido" ≠ "Unknown" ∧
    "Fila de Espera" ≠ "Queue wait" := by
  decide

/-- Claim C3 (amended): `origin` is the stringified raw origin with a numeric
prefix `<digits>:` plus following whitespace stripped once from the start —
with no trimming; a missing origin (stringified `nan`) resolves to the
sentinel `Desconhecido`, the exact value `Wait in queue` resolves to the
sentinel `Fila de Espera`, and no other substitution occurs. -/
theorem claim3_amended_agent_cleanup :
    (∀ (row : Row) (ts : Int),
      (mkRecord row ts).agente = agenteOf (cell row "From")) ∧
    agenteOf none = "Desconhecido" ∧
    agenteOf (some "Wait in queue") = "Fila de Espera" ∧
    (∀ s : String, stripAgentCode s ≠ "nan" →
      stripAgentCode s ≠ "Wait in queue" →
        agenteOf (some s) = stripAgentCode s) ∧
    stripAgentCode "067: Maria" = "Maria" ∧
    stripAgentCode "12:34: x" = "34: x" ∧
    (∀ s : String, s.toList.takeWhile Char.isDigit = [] →
      stripAgentCode s = s) := by
  refine ⟨fun row ts => rfl, by decide, by decide, ?_, by decide, by decide, ?_⟩
  · intro s h1 h2
    simp only [agenteOf, pyStr]
    rw [if_neg h1, if_neg h2]
  · intro s h
    simp only [stripAgentCode, h, List.isEmpty_nil, if_true]

/-- Witness for the amended claim C3 at a plain agent name. -/
theorem claim3_amended_witness :
    stripAgentCode "Maria" ≠ "nan" ∧
    agenteOf (some "Maria") = stripAgentCode "Maria" ∧
    "Maria".toList.takeWhile Char.isDigit = [] ∧
    stripAgentCode "Maria" = "Maria" :=
  ⟨by decide,
   claim3_amended_agent_cleanup.2.2.2.1 "Maria" (by decide) (by decide),
   by decide,
   claim3_amended_agent_cleanup.2.2.2.2.2.2 "Maria" (by decide)⟩

/-- Claim C4 is false of the code at the translation step: the weekday
dictionary map (`Series.map`) yields null (`NaN`), not the unchanged input,
for a value that is not a dictionary key. -/
theorem claim4_cex :
    mapDiaSemana "Feriado" = none ∧ (none : Option String) ≠ some "Feriado" := by
  decide

/-- The seven values of `day_name` are exactly the keys of the weekday
dictionary. -/
theorem day_name_translates :
    ∀ n : Nat, n < 7 → ∃ pt, mapDiaSemana (day_name n) = some pt ∧
      (day_name n, pt) ∈ dias_traducao := by
  intro n hn
  interval_cases n
  · exact ⟨"Domingo", by decide, by decide⟩
  · exact ⟨"Segunda", by decide, by decide⟩
  · exact ⟨"Terça", by decide, by decide⟩
  · exact ⟨"Quarta", by decide, by decide⟩
  · exact ⟨"Quinta", by decide, by decide⟩
  · exact ⟨"Sexta", by decide, by decide⟩
  · exact ⟨"Sábado", by decide, by decide⟩

/-- The weekday index is always one of the seven values. -/
theorem weekdayIdx_lt (z : Int) : weekdayIdx z < 7 := by
  unfold weekdayIdx
  omega

/-- Claim C4 (amended): the weekday translation is a dictionary map that
yields null for unmapped input rather than passing it through; however, the
English weekday always comes from the calendar's `day_name`, whose range is
exactly the dictionary's key set, so every output record's translated weekday
is the table's value and is never null. -/
theorem claim4_amended_weekday_translation :
    ∀ (row : Row) (ts : Int), ∃ pt,
      (mkRecord row ts).dia_Semana_PT = some pt ∧
      mapDiaSemana ((mkRecord row ts).dia_Semana) = some pt ∧
      ((mkRecord row ts).dia_Semana, pt) ∈ dias_traducao := by
  intro row ts
  have hn := weekdayIdx_lt (Int.ediv (tz_convert_SaoPaulo ts) 86400)
  obtain ⟨pt, h1, h2⟩ := day_name_translates _ hn
  exact ⟨pt, h1, h1, h2⟩

/-- Claim C5 is false of the code: `to_numeric` does not clamp, so a negative
raw duration survives into `duration_ms`, violating `duration_ms >= 0`. -/
theorem claim5_cex :
    (recsOf tbl5).map CallRecord.duration_ms = [(-1 : ℚ)] ∧
    ¬ ((0 : ℚ) ≤ -1) := by
  decide

/-- Claim C5 (amended): `duration_ms` is the parsed raw duration when it
parses (which may be negative — non-negativity is not enforced) and `0` when
the raw value is missing or unparseable, never null; and
`duration_minutes = duration_ms / 60000` exactly, with no rounding. -/
theorem claim5_amended_duration :
    (∀ (t : RawTable) (r : CallRecord), r ∈ recsOf t →
      r.duracao_Minutos = r.duration_ms / 60000) ∧
    (∀ (t : RawTable) (r : CallRecord), r ∈ recsOf t →
      ∃ row, row ∈ t.rows ∧
        r.duration_ms =
          (parseNumeric (cell row "Duration [Milliseconds]")).getD 0) ∧
    (∀ (row : Row) (ts : Int),
      parseNumeric (cell row "Duration [Milliseconds]") = none →
        (mkRecord row ts).duration_ms = 0) := by
  refine ⟨?_, ?_, ?_⟩
  · intro t r hr
    obtain ⟨row, ts, _, _, hrec⟩ := mem_recsOf hr
    rw [hrec]
    rfl
  · intro t r hr
    obtain ⟨row, ts, hrow, _, hrec⟩ := mem_recsOf hr
    exact ⟨row, hrow, by rw [hrec]; rfl⟩
  · intro row ts h
    show (parseNumeric (cell row "Duration [Milliseconds]")).getD 0 = 0
    rw [h]
    rfl

/-- A row whose duration cell is unparseable text. -/
def rowDurBad : Row := [("Duration [Milliseconds]", some "abc")]

/-- Witness for the amended claim C5: the scenario record's exact division,
and the unparseable-duration fallback to zero. -/
theorem claim5_amended_witness :
    (mkRecord row1 1705312800 ∈ recsOf tbl1) ∧
    (mkRecord row1 1705312800).duracao_Minutos =
      (mkRecord row1 1705312800).duration_ms / 60000 ∧
    parseNumeric (cell rowDurBad "Duration [Milliseconds]") = none ∧
    (mkRecord rowDurBad 0).duration_ms = 0 := by
  have he : recsOf tbl1 = [mkRecord row1 1705312800] := rfl
  have hm : mkRecord row1 1705312800 ∈ recsOf tbl1 := by
    rw [he]
    exact List.mem_singleton.mpr rfl
  exact ⟨hm, claim5_amended_duration.1 tbl1 _ hm, by decide,
    claim5_amended_duration.2.2 rowDurBad 0 (by decide)⟩

/-- Claim C6: normalization never grows the row count, with equality exactly
when every row's date cell resolves to a timestamp; dropping
unparseable-timestamp rows is the sole row filter, applied before the derived
columns are built. -/
theorem claim6_row_count :
    ∀ t : RawTable, isOkB (load_data t) = true →
      (recsOf t).length ≤ t.rows.length ∧
      ((recsOf t).length = t.rows.length ↔
        ∀ row ∈ t.rows, (parseDateCell row (dateColOf t)).isSome = true) := by
  intro t hok
  obtain ⟨hd, h2, h3⟩ := (load_data_ok_iff t).mp hok
  have h1 : dateColOf t ∈ t.headers := (dateCol_mem_iff t).mpr hd
  rw [recsOf_eq t h1 h2 h3, List.length_map]
  have hiso : ∀ row : Row,
      ((parseDateCell row (dateColOf t)).map fun ts => (row, ts)).isSome =
        (parseDateCell row (dateColOf t)).isSome := by
    intro row
    cases parseDateCell row (dateColOf t) <;> rfl
  constructor
  · exact List.length_filterMap_le _ _
  · rw [length_filterMap_eq_iff]
    constructor
    · intro hall row hrow
      have hx := hall row hrow
      rwa [hiso row] at hx
    · intro hall row hrow
      rw [hiso row]
      exact hall row hrow

/-- Witness for claim C6 at a table with one parseable and one unparseable
date: one row is kept, one dropped. -/
theorem claim6_witness :
    isOkB (load_data tbl6) = true ∧
    (recsOf tbl6).length = 1 ∧ tbl6.rows.length = 2 ∧
    ((recsOf tbl6).length ≤ tbl6.rows.length ∧
      ((recsOf tbl6).length = tbl6.rows.length ↔
        ∀ row ∈ tbl6.rows,
          (parseDateCell row (dateColOf tbl6)).isSome = true)) :=
  ⟨by decide, by decide, by decide, claim6_row_count tbl6 (by decide)⟩

/-- Claim C7: `load_data` fails exactly when a required column (a recognized
date column, the duration column, the origin column) is absent from the
header, and whether it fails depends only on the header — never on the row
contents, so a malformed field value cannot raise. -/
theorem claim7_structural_error :
    (∀ t : RawTable, isOkB (load_data t) = true ↔
      (("Date [America/Sao_Paulo]" ∈ t.headers ∨ "Date" ∈ t.headers) ∧
        "Duration [Milliseconds]" ∈ t.headers ∧ "From" ∈ t.headers)) ∧
    (∀ (hs : List String) (rows rows2 : List Row),
      isOkB (load_data ⟨hs, rows⟩) = isOkB (load_data ⟨hs, rows2⟩)) := by
  refine ⟨load_data_ok_iff, ?_⟩
  intro hs rows rows2
  apply Bool.coe_iff_coe.mp
  rw [load_data_ok_iff, load_data_ok_iff]

/-- Claim C8: the loss rate of an empty matched set is defined as `0` with
total `0` (no division by zero happens); on a nonempty matched set it is the
matched-unsuccessful count over the total as a percentage, and it always lies
in `[0, 100]`. -/
theorem claim8_loss_rate_safe :
    missed_rate [] = 0 ∧ total_calls ([] : List CallRecord) = 0 ∧
    (∀ d : List CallRecord, 0 < total_calls d →
      missed_rate d =
        ((missed_count d : ℕ) : ℚ) / ((total_calls d : ℕ) : ℚ) * 100) ∧
    (∀ d : List CallRecord, 0 ≤ missed_rate d ∧ missed_rate d ≤ 100) := by
  refine ⟨rfl, rfl, ?_, ?_⟩
  · intro d hd
    simp [missed_rate, hd]
  · intro d
    by_cases hd : 0 < total_calls d
    · have hc : missed_count d ≤ total_calls d := List.length_filter_le _ _
      have ht0 : (0 : ℚ) < ((total_calls d : ℕ) : ℚ) := by exact_mod_cast hd
      have hrate : missed_rate d =
          ((missed_count d : ℕ) : ℚ) / ((total_calls d : ℕ) : ℚ) * 100 := by
        simp [missed_rate, hd]
      constructor
      · rw [hrate]
        positivity
      · rw [hrate]
        have hdiv : ((missed_count d : ℕ) : ℚ) /
            ((total_calls d : ℕ) : ℚ) ≤ 1 := by
          rw [div_le_one ht0]
          exact_mod_cast hc
        calc ((missed_count d : ℕ) : ℚ) / ((total_calls d : ℕ) : ℚ) * 100
            ≤ 1 * 100 := mul_le_mul_of_nonneg_right hdiv (by norm_num)
          _ = 100 := by norm_num
    · have hz : missed_rate d = 0 := by simp [missed_rate, hd]
      rw [hz]
      norm_num

/-- Witness for claim C8 at the one-record scenario set. -/
theorem claim8_witness :
    0 < total_calls (recsOf tbl1) ∧
    missed_rate (recsOf tbl1) =
      ((missed_count (recsOf tbl1) : ℕ) : ℚ) /
        ((total_calls (recsOf tbl1) : ℕ) : ℚ) * 100 :=
  ⟨by decide, claim8_loss_rate_safe.2.2.1 (recsOf tbl1) (by decide)⟩

/-- Claim C9: a record is in the filtered output iff it is in the input and
satisfies every supplied constraint (conjunction across the date range, the
direction and result sets, and — when nonempty — the agent set); and
supplying the agent constraint, or shrinking the direction or result set,
never increases the matched length. -/
theorem claim9_filter_and_monotone :
    (∀ (df : List CallRecord) (s e : CivilDate) (dirs ress : List Cell)
        (agents : List String) (r : CallRecord),
      r ∈ df_filtered df s e dirs ress agents ↔
        r ∈ df ∧ dateLe s r.data = true ∧ dateLe r.data e = true ∧
          dirs.contains r.direction = true ∧
          ress.contains r.callResult = true ∧
          (agents ≠ [] → agents.contains r.agente = true)) ∧
    (∀ (df : List CallRecord) (s e : CivilDate) (dirs ress : List Cell)
        (agents : List String),
      (df_filtered df s e dirs ress agents).length ≤
        (df_filtered df s e dirs ress []).length) ∧
    (∀ (df : List CallRecord) (s e : CivilDate) (dirs dirs2 ress : List Cell)
        (agents : List String), dirs ⊆ dirs2 →
      (df_filtered df s e dirs ress agents).length ≤
        (df_filtered df s e dirs2 ress agents).length) ∧
    (∀ (df : List CallRecord) (s e : CivilDate) (dirs ress ress2 : List Cell)
        (agents : List String), ress ⊆ ress2 →
      (df_filtered df s e dirs ress agents).length ≤
        (df_filtered df s e dirs ress2 agents).length) := by
  refine ⟨?_, ?_, ?_, ?_⟩
  · intro df s e dirs ress agents r
    rw [df_filtered_eq, List.mem_filter]
    simp only [matchesF, Bool.and_eq_true, Bool.or_eq_true, List.isEmpty_iff,
      or_iff_not_imp_left, ne_eq]
    tauto
  · intro df s e dirs ress agents
    rw [df_filtered_eq, df_filtered_eq]
    apply length_filter_mono
    intro a ha
    simp only [matchesF, Bool.and_eq_true, Bool.or_eq_true] at ha ⊢
    exact ⟨ha.1, Or.inl rfl⟩
  · intro df s e dirs dirs2 ress agents hsub
    rw [df_filtered_eq, df_filtered_eq]
    apply length_filter_mono
    intro a ha
    simp only [matchesF, Bool.and_eq_true] at ha ⊢
    obtain ⟨⟨⟨⟨hA, hB⟩, hC⟩, hD⟩, hE⟩ := ha
    exact ⟨⟨⟨⟨hA, hB⟩, contains_mono hsub hC⟩, hD⟩, hE⟩
  · intro df s e dirs ress ress2 agents hsub
    rw [df_filtered_eq, df_filtered_eq]
    apply length_filter_mono
    intro a ha
    simp only [matchesF, Bool.and_eq_true] at ha ⊢
    obtain ⟨⟨⟨⟨hA, hB⟩, hC⟩, hD⟩, hE⟩ := ha
    exact ⟨⟨⟨⟨hA, hB⟩, hC⟩, contains_mono hsub hD⟩, hE⟩

/-- Witness for claim C9: adding the direction constraint to the empty set
cannot grow the match, and the concrete superset filter matches the scenario
record. -/
theorem claim9_witness :
    (([] : List Cell) ⊆ [some "Inbound"]) ∧
    (df_filtered (recsOf tbl1) ⟨2024, 1, 1⟩ ⟨2024, 12, 31⟩ []
        [some "Missed Call"] []).length ≤
      (df_filtered (recsOf tbl1) ⟨2024, 1, 1⟩ ⟨2024, 12, 31⟩ [some "Inbound"]
        [some "Missed Call"] []).length ∧
    (df_filtered (recsOf tbl1) ⟨2024, 1, 1⟩ ⟨2024, 12, 31⟩ [some "Inbound"]
        [some "Missed Call"] []).length = 1 :=
  ⟨List.nil_subset _,
   claim9_filter_and_monotone.2.2.1 (recsOf tbl1) ⟨2024, 1, 1⟩ ⟨2024, 12, 31⟩
     [] [some "Inbound"] [some "Missed Call"] [] (List.nil_subset _),
   by decide⟩

/-- Claim C10: a record counts toward the missed-calls KPI iff its raw
`Call Result` contains `Missed` or `Voicemail` case-insensitively; in
particular `Sent to voicemail` counts while `Rejected`, `Busy` and `Failed`
do not, and a null `Call Result` never counts. -/
theorem claim10_missed_predicate :
    (∀ r : CallRecord, lostB r.callResult = true ↔
      ∃ s, r.callResult = some s ∧
        (containsCI s "Missed" = true ∨ containsCI s "Voicemail" = true)) ∧
    lostB (some "Sent to voicemail") = true ∧
    lostB (some "Missed Call") = true ∧
    lostB (some "MISSED") = true ∧
    lostB (some "voicemail") = true ∧
    lostB (some "Rejected") = false ∧
    lostB (some "Busy") = false ∧
    lostB (some "Failed") = false ∧
    lostB none = false ∧
    missed_count demoRecords = 2 := by
  refine ⟨?_, by decide, by decide, by decide, by decide, by decide, by decide,
    by decide, rfl, by decide⟩
  intro r
  cases hc : r.callResult with
  | none => simp [lostB]
  | some s =>
    simp only [lostB, Bool.or_eq_true]
    constructor
    · intro hx
      exact ⟨s, rfl, hx⟩
    · rintro ⟨s2, hs2, hx⟩
      have : s2 = s := by injection hs2 with hinj; exact hinj.symm
      rw [this] at hx
      exact hx

end GoToAnalytics
